import Mathlib

/-!
Verification of the Instagram engagement MCP server core (src/index.ts):
session state machine, paginated-feed accumulation, entity resolution,
deduplicating aggregation, lead-criteria evaluation, engagement-rate
computation and date-range filtering, shallowly embedded in Lean.
-/

namespace IcyMcp

/-! ## JavaScript Array.prototype.slice(0, end) semantics -/

/-- Normalised end index of `arr.slice(0, e)` for an array of length `len`:
a negative `e` counts from the end, an `e` past the end is clamped. -/
def jsSliceEnd (len : Nat) (e : Int) : Nat :=
  if e < 0 then (max ((len : Int) + e) 0).toNat else min e.toNat len

/-- Model of `arr.slice(0, e)` on a list. -/
def jsSlice {α : Type} (l : List α) (e : Int) : List α :=
  l.take (jsSliceEnd l.length e)

/-! ## Paginated feed accumulation

A feed is modelled as the list of pages it will serve in order:
`items()` returns the next page (empty once exhausted) and
`isMoreAvailable()` reports whether pages remain after the one fetched.

The accumulation loop of `handleAnalyzePostComments` (src/index.ts
lines 322-331) and of the account branch of `handleExtractDemographics`
(lines 489-495) is a `do { items; concat; if (count >= target) break }
while (feed.isMoreAvailable())`, followed by `slice(0, target)`. -/

/-- One run of the `do ... while` accumulation loop: returns the
accumulated items and the number of pages requested from the feed. -/
def feedGo {α : Type} : List (List α) → List α → Nat → Int → List α × Nat
  | [], acc, req, _ => (acc, req + 1)
  | page :: rest, acc, req, target =>
      let acc' := acc ++ page
      if (acc'.length : Int) ≥ target then (acc', req + 1)
      else
        match rest with
        | [] => (acc', req + 1)
        | _ :: _ => feedGo rest acc' (req + 1) target

/-- The comment-fetch loop of `handleAnalyzePostComments`: accumulated
comments plus number of pages requested (before the final `slice`). -/
def analyzeFetchComments {α : Type} (pages : List (List α)) (maxComments : Int) :
    List α × Nat :=
  feedGo pages [] 0 maxComments

/-- The comment sequence `handleAnalyzePostComments` analyzes:
`comments.slice(0, maxComments)` after the loop. -/
def analyzeCommentsResult {α : Type} (pages : List (List α)) (maxComments : Int) :
    List α :=
  jsSlice (analyzeFetchComments pages maxComments).1 maxComments

/-- The follower-fetch loop of `handleExtractDemographics` (account
branch), identical in structure to the comment loop. -/
def demographicsFetchUsers {α : Type} (pages : List (List α)) (sampleSize : Int) :
    List α × Nat :=
  feedGo pages [] 0 sampleSize

/-- The user sample `handleExtractDemographics` analyzes:
`fetchedUsers.slice(0, sampleSize)` after the loop. -/
def demographicsUsersResult {α : Type} (pages : List (List α)) (sampleSize : Int) :
    List α :=
  jsSlice (demographicsFetchUsers pages sampleSize).1 sampleSize

/-- The post-fetch loop of `handleGenerateReport` (src/index.ts lines
693-700): hard cap `maxPostsToFetch = 200`, loop condition
`postsFeed.isMoreAvailable() && postCount < maxPostsToFetch`, and no
truncation of `allPosts` after the loop. -/
def reportGo {α : Type} : List (List α) → List α → Nat → List α × Nat
  | [], acc, req => (acc, req + 1)
  | page :: rest, acc, req =>
      let acc' := acc ++ page
      if acc'.length ≥ 200 then (acc', req + 1)
      else
        match rest with
        | [] => (acc', req + 1)
        | _ :: _ =>
            if acc'.length < 200 then reportGo rest acc' (req + 1)
            else (acc', req + 1)

/-- `allPosts` of `handleGenerateReport` together with the number of
pages requested; the source applies no `slice` to this sequence. -/
def reportFetchPosts {α : Type} (pages : List (List α)) : List α × Nat :=
  reportGo pages [] 0

/-! ### Lemmas about the accumulation loops -/

lemma feedGo_length_le {α : Type} :
    ∀ (pages : List (List α)) (acc : List α) (req : Nat) (t : Int),
      (feedGo pages acc req t).1.length ≤ acc.length + pages.flatten.length
  | [], acc, req, t => by simp [feedGo]
  | page :: rest, acc, req, t => by
      simp only [feedGo]
      split
      · simp
      · match rest with
        | [] => simp
        | q :: rest' =>
            have h := feedGo_length_le (q :: rest') (acc ++ page) (req + 1) t
            simpa [List.flatten_cons, Nat.add_assoc] using h

lemma feedGo_all_of_lt {α : Type} :
    ∀ (pages : List (List α)) (acc : List α) (req : Nat) (t : Int),
      ((feedGo pages acc req t).1.length : Int) < t →
      (feedGo pages acc req t).1 = acc ++ pages.flatten
  | [], acc, req, t => by simp [feedGo]
  | page :: rest, acc, req, t => by
      simp only [feedGo]
      split
      · intro hlt
        rename_i hge
        exact absurd hge (not_le.mpr hlt)
      · match rest with
        | [] => simp
        | q :: rest' =>
            intro hlt
            have h := feedGo_all_of_lt (q :: rest') (acc ++ page) (req + 1) t hlt
            simpa [List.flatten_cons, List.append_assoc] using h

lemma reportGo_length_le {α : Type} :
    ∀ (pages : List (List α)) (acc : List α) (req : Nat) (L : Nat),
      (∀ p ∈ pages, p.length ≤ L) → acc.length < 200 →
      (reportGo pages acc req).1.length ≤ 199 + L
  | [], acc, req, L => by
      intro _ hacc
      simp only [reportGo]
      omega
  | page :: rest, acc, req, L => by
      intro hp hacc
      have hpage : page.length ≤ L := hp page (by simp)
      have hbound : (acc ++ page).length ≤ 199 + L := by
        simp only [List.length_append]
        omega
      match rest with
      | [] =>
          simp only [reportGo]
          split
          · exact hbound
          · exact hbound
      | q :: rest' =>
          simp only [reportGo]
          split
          · exact hbound
          · split
            · rename_i hlt
              exact reportGo_length_le (q :: rest') (acc ++ page) (req + 1) L
                (fun p hmem => hp p (List.mem_cons_of_mem _ hmem)) hlt
            · exact hbound

/-- Length of the sliced accumulation result: the minimum of the target
and the total number of available items, for positive targets. -/
lemma feedGo_sliced_length {α : Type} (pages : List (List α)) (t : Int)
    (ht : 0 < t) :
    (jsSlice (feedGo pages [] 0 t).1 t).length = min t.toNat pages.flatten.length := by
  have hle : (feedGo pages [] 0 t).1.length ≤ pages.flatten.length := by
    simpa using feedGo_length_le pages [] 0 t
  have hslice : ∀ l : List α, (jsSlice l t).length = min t.toNat l.length := by
    intro l
    unfold jsSlice jsSliceEnd
    rw [if_neg (by omega), List.length_take]
    omega
  rw [hslice]
  by_cases hav : t ≤ (pages.flatten.length : Int)
  · have hRge : t ≤ ((feedGo pages [] 0 t).1.length : Int) := by
      by_contra hcon
      push_neg at hcon
      have hall := feedGo_all_of_lt pages [] 0 t hcon
      rw [hall] at hcon
      simp only [List.nil_append] at hcon
      omega
    omega
  · push_neg at hav
    have hRlt : ((feedGo pages [] 0 t).1.length : Int) < t := by
      have hc : ((feedGo pages [] 0 t).1.length : Int) ≤ (pages.flatten.length : Int) := by
        exact_mod_cast hle
      omega
    have hall := feedGo_all_of_lt pages [] 0 t hRlt
    rw [hall]
    simp only [List.nil_append]

/-! ## Claim C1 -/

/-- C1 counterexample: with a single available page `[0, 1]` and
`maxComments = -1 ≤ 0`, `handleAnalyzePostComments` requests one page
(the loop is `do ... while`, so the first `items()` call always
happens) and returns `[0]` (JS `slice(0, -1)` drops only the last
item), refuting the claim that the accumulation returns an empty
sequence without requesting any page. -/
theorem c1_counterexample :
    ¬ (analyzeCommentsResult [[0, 1]] (-1) = ([] : List Nat) ∧
        (analyzeFetchComments [[0, 1]] (-1 : Int)).2 = 0) := by
  decide

/-- C1 amended: for every targetCount ≤ 0, the accumulation loop
requests exactly one page (the `do ... while` body runs once and the
stop condition `count ≥ targetCount` then holds), and the returned
sequence is the first page truncated by JS `slice(0, targetCount)` —
empty when targetCount = 0, but for negative targetCount only the last
`|targetCount|` items of the first page are dropped. -/
theorem c1_amended {α : Type} (pages : List (List α)) (t : Int) (ht : t ≤ 0) :
    analyzeFetchComments pages t = (pages.headD [], 1) ∧
    demographicsFetchUsers pages t = (pages.headD [], 1) ∧
    analyzeCommentsResult pages t = jsSlice (pages.headD []) t ∧
    demographicsUsersResult pages t = jsSlice (pages.headD []) t ∧
    (t = 0 → analyzeCommentsResult pages t = [] ∧ demographicsUsersResult pages t = []) := by
  have hfeed : feedGo pages [] 0 t = (pages.headD [], 1) := by
    cases pages with
    | nil => simp [feedGo]
    | cons p rest =>
        simp only [feedGo, List.nil_append, List.headD_cons]
        split
        · rfl
        · rename_i hlt
          exfalso
          omega
  have hzero : ∀ l : List α, jsSlice l (0 : Int) = [] := by
    intro l
    simp [jsSlice, jsSliceEnd]
  refine ⟨hfeed, hfeed, ?_, ?_, ?_⟩
  · simp [analyzeCommentsResult, analyzeFetchComments, hfeed]
  · simp [demographicsUsersResult, demographicsFetchUsers, hfeed]
  · intro h0
    subst h0
    constructor
    · simp [analyzeCommentsResult, analyzeFetchComments, hfeed, hzero]
    · simp [demographicsUsersResult, demographicsFetchUsers, hfeed, hzero]

/-- C1 amended, witness at a concrete input: target 0, one page `[3, 4]`. -/
theorem c1_amended_witness :
    analyzeFetchComments [[3, 4]] (0 : Int) = ([3, 4], 1) ∧
    demographicsFetchUsers [[3, 4]] (0 : Int) = ([3, 4], 1) ∧
    analyzeCommentsResult [[3, 4]] (0 : Int) = jsSlice [3, 4] 0 ∧
    demographicsUsersResult [[3, 4]] (0 : Int) = jsSlice [3, 4] 0 ∧
    ((0 : Int) = 0 → analyzeCommentsResult [[3, 4]] (0 : Int) = [] ∧
      demographicsUsersResult [[3, 4]] (0 : Int) = []) :=
  c1_amended [[3, 4]] 0 (by decide)

/-! ## Claim C2 -/

set_option maxRecDepth 4000 in
/-- C2 counterexample: the engagement report's post fetch does not
truncate. With two pages of 150 posts each, the loop stops after the
second page (count 300 ≥ cap 200) but `allPosts` keeps all 300 posts —
more than the hard cap of 200 — because `handleGenerateReport` never
slices `allPosts`. -/
theorem c2_counterexample :
    ¬ (reportFetchPosts [List.replicate 150 (0 : Nat), List.replicate 150 0]).1.length ≤ 200 := by
  decide

/-- C2 amended: the accumulations that are followed by a `slice`
(comment analysis and demographic sampling) return exactly
`min targetCount available` items for positive targets — never more
than targetCount, and exactly targetCount when enough are available.
The engagement report's post fetch stops requesting pages once the
count reaches its 200-post cap but retains the whole last page, so its
sequence is only bounded by `199 + (page size)`. -/
theorem c2_amended {α : Type} (pages : List (List α)) (t : Int) (L : Nat)
    (ht : 0 < t) (hL : ∀ p ∈ pages, p.length ≤ L) :
    (analyzeCommentsResult pages t).length = min t.toNat pages.flatten.length ∧
    (demographicsUsersResult pages t).length = min t.toNat pages.flatten.length ∧
    (analyzeCommentsResult pages t).length ≤ t.toNat ∧
    (t ≤ (pages.flatten.length : Int) → (analyzeCommentsResult pages t).length = t.toNat) ∧
    (reportFetchPosts pages).1.length ≤ 199 + L := by
  have h1 : (analyzeCommentsResult pages t).length = min t.toNat pages.flatten.length :=
    feedGo_sliced_length pages t ht
  have h2 : (demographicsUsersResult pages t).length = min t.toNat pages.flatten.length :=
    feedGo_sliced_length pages t ht
  refine ⟨h1, h2, ?_, ?_, ?_⟩
  · rw [h1]; omega
  · intro hav
    rw [h1]
    omega
  · exact reportGo_length_le pages [] 0 L hL (by simp)

/-- C2 amended, witness: target 3, pages `[[1, 2], [3, 4]]`, page bound 2. -/
theorem c2_amended_witness :
    (analyzeCommentsResult [[1, 2], [3, 4]] (3 : Int)).length =
      min (3 : Int).toNat ([[1, 2], [3, 4]] : List (List Nat)).flatten.length ∧
    (demographicsUsersResult [[1, 2], [3, 4]] (3 : Int)).length =
      min (3 : Int).toNat ([[1, 2], [3, 4]] : List (List Nat)).flatten.length ∧
    (analyzeCommentsResult [[1, 2], [3, 4]] (3 : Int)).length ≤ (3 : Int).toNat ∧
    ((3 : Int) ≤ (([[1, 2], [3, 4]] : List (List Nat)).flatten.length : Int) →
      (analyzeCommentsResult [[1, 2], [3, 4]] (3 : Int)).length = (3 : Int).toNat) ∧
    (reportFetchPosts [[1, 2], [3, 4]]).1.length ≤ 199 + 2 :=
  c2_amended [[1, 2], [3, 4]] 3 2 (by decide) (by decide)

/-! ## Deduplicating user aggregation of `handleIdentifyLeads`

The source (src/index.ts lines 570-595) builds a JS `Map` keyed by
`String(comment.user.pk)`: a first occurrence inserts
`{ ...comment.user, comments: [comment.text] }` at the end of the map
(JS `Map` preserves insertion order), a repeat occurrence pushes the
comment text onto the existing entry. We model the `Map` as an
association list in insertion order. -/

/-- A comment record as consumed by the aggregation: the embedded
user's `pk` and `username`, and the comment `text`. -/
structure IgComment where
  userPk : Nat
  username : String
  text : String
deriving DecidableEq

/-- The per-user record kept in `usersToAnalyze`. -/
structure AnalyzedUser where
  pk : Nat
  username : String
  comments : List String
deriving DecidableEq

/-- One `forEach` step over the comments (lines 576-583): insert a new
user keyed by `String(pk)` or append the text to the existing entry. -/
def addCommentToMap (m : List (String × AnalyzedUser)) (c : IgComment) :
    List (String × AnalyzedUser) :=
  let k := toString c.userPk
  if m.any (fun e => e.1 = k) then
    m.map (fun e =>
      if e.1 = k then (e.1, { e.2 with comments := e.2.comments ++ [c.text] }) else e)
  else
    m ++ [(k, ⟨c.userPk, c.username, [c.text]⟩)]

/-- The whole `comments.forEach` aggregation building `usersToAnalyze`. -/
def buildUsersToAnalyze (cs : List IgComment) : List (String × AnalyzedUser) :=
  cs.foldl addCommentToMap []

/-- First-occurrence deduplication relative to a set of already seen
keys; formalises "first-encounter insertion order". -/
def firstDedupFrom : List String → List String → List String
  | _, [] => []
  | seen, x :: xs =>
      if x ∈ seen then firstDedupFrom seen xs
      else x :: firstDedupFrom (x :: seen) xs

lemma firstDedupFrom_congr :
    ∀ (l : List String) (s₁ s₂ : List String),
      (∀ x, x ∈ s₁ ↔ x ∈ s₂) → firstDedupFrom s₁ l = firstDedupFrom s₂ l
  | [], _, _, _ => rfl
  | x :: xs, s₁, s₂, h => by
      simp only [firstDedupFrom]
      by_cases hx : x ∈ s₁
      · rw [if_pos hx, if_pos ((h x).mp hx)]
        exact firstDedupFrom_congr xs s₁ s₂ h
      · rw [if_neg hx, if_neg (fun hc => hx ((h x).mpr hc))]
        refine congrArg (x :: ·) ?_
        refine firstDedupFrom_congr xs (x :: s₁) (x :: s₂) ?_
        intro y
        simp only [List.mem_cons]
        exact or_congr Iff.rfl (h y)

lemma addCommentToMap_keys_mem (m : List (String × AnalyzedUser)) (c : IgComment)
    (h : toString c.userPk ∈ m.map Prod.fst) :
    (addCommentToMap m c).map Prod.fst = m.map Prod.fst := by
  unfold addCommentToMap
  rw [if_pos]
  · rw [List.map_map]
    refine List.map_congr_left ?_
    intro e _
    by_cases he : e.1 = toString c.userPk
    · simp [he]
    · simp [he]
  · rw [List.any_eq_true]
    rcases List.mem_map.mp h with ⟨e, hem, hek⟩
    exact ⟨e, hem, by simp [hek]⟩

lemma addCommentToMap_keys_notMem (m : List (String × AnalyzedUser)) (c : IgComment)
    (h : toString c.userPk ∉ m.map Prod.fst) :
    (addCommentToMap m c).map Prod.fst = m.map Prod.fst ++ [toString c.userPk] := by
  unfold addCommentToMap
  rw [if_neg]
  · simp
  · rw [List.any_eq_true]
    rintro ⟨e, hem, hek⟩
    exact h (List.mem_map.mpr ⟨e, hem, by simpa using hek⟩)

lemma buildUsers_keys_go :
    ∀ (cs : List IgComment) (m : List (String × AnalyzedUser)),
      (cs.foldl addCommentToMap m).map Prod.fst =
        m.map Prod.fst ++ firstDedupFrom (m.map Prod.fst) (cs.map (fun c => toString c.userPk))
  | [], m => by simp [firstDedupFrom]
  | c :: cs, m => by
      simp only [List.foldl_cons, List.map_cons, firstDedupFrom]
      by_cases h : toString c.userPk ∈ m.map Prod.fst
      · rw [if_pos h, buildUsers_keys_go cs (addCommentToMap m c),
          addCommentToMap_keys_mem m c h]
      · rw [if_neg h, buildUsers_keys_go cs (addCommentToMap m c),
          addCommentToMap_keys_notMem m c h]
        rw [List.append_assoc]
        refine congrArg (m.map Prod.fst ++ ·) ?_
        refine congrArg ([toString c.userPk] ++ ·) ?_
        refine firstDedupFrom_congr _ _ _ ?_
        intro y
        simp [or_comm]

lemma firstDedupFrom_nodup :
    ∀ (l : List String) (seen : List String),
      (firstDedupFrom seen l).Nodup ∧ ∀ x ∈ firstDedupFrom seen l, x ∉ seen
  | [], _ => by simp [firstDedupFrom]
  | x :: xs, seen => by
      simp only [firstDedupFrom]
      by_cases hx : x ∈ seen
      · rw [if_pos hx]
        exact firstDedupFrom_nodup xs seen
      · rw [if_neg hx]
        obtain ⟨hnd, hnotin⟩ := firstDedupFrom_nodup xs (x :: seen)
        constructor
        · refine List.nodup_cons.mpr ⟨?_, hnd⟩
          intro hmem
          exact hnotin x hmem (by simp)
        · intro y hy
          rcases List.mem_cons.mp hy with hyx | hyt
          · subst hyx; exact hx
          · intro hys
            exact hnotin y hyt (List.mem_cons_of_mem _ hys)

/-! ## Claim C3 -/

/-- C3: the user aggregation of `handleIdentifyLeads` deduplicates by
pk. Two comments sharing pk 123 with texts "a" and "b" produce exactly
one map entry whose comments are `["a", "b"]` in encounter order; in
general the key list of the built map never repeats a pk and equals the
first-occurrence deduplication of the encounter sequence, preserving
first-encounter insertion order. -/
theorem c3_dedup_by_pk :
    buildUsersToAnalyze [⟨123, "u", "a"⟩, ⟨123, "u", "b"⟩] =
      [("123", ⟨123, "u", ["a", "b"]⟩)] ∧
    (∀ cs : List IgComment, ((buildUsersToAnalyze cs).map Prod.fst).Nodup) ∧
    (∀ cs : List IgComment,
      (buildUsersToAnalyze cs).map Prod.fst =
        firstDedupFrom [] (cs.map (fun c => toString c.userPk))) := by
  refine ⟨by decide, ?_, ?_⟩
  · intro cs
    have h := buildUsers_keys_go cs []
    simp only [List.map_nil, List.nil_append] at h
    rw [show buildUsersToAnalyze cs = cs.foldl addCommentToMap [] from rfl, h]
    exact (firstDedupFrom_nodup _ []).1
  · intro cs
    have h := buildUsers_keys_go cs []
    simp only [List.map_nil, List.nil_append] at h
    exact h

/-! ## Engagement-rate computation

`handleCompareAccounts` (src/index.ts lines 388-410) and
`handleGenerateReport` (lines 723-761) compute
`((avgLikes + avgComments) / followerCount) * 100`, guarded by
`followerCount > 0`, and display `parseFloat(rate.toFixed(2))`.
Arithmetic is modelled exactly over ℚ; `toFixed(2)` is rounding to two
decimal places (the rates here are nonnegative, where round-half-up and
JS round-half-away-from-zero agree). -/

/-- A post as consumed by the metric computations: `like_count` and
`comment_count` may be absent (`post.like_count || 0`). -/
structure IgPost where
  like_count : Option Nat
  comment_count : Option Nat
deriving DecidableEq

/-- `recentPosts.reduce((sum, post) => sum + (post.like_count || 0), 0)`. -/
def totalLikes (posts : List IgPost) : Nat :=
  posts.foldl (fun sum post => sum + post.like_count.getD 0) 0

/-- `recentPosts.reduce((sum, post) => sum + (post.comment_count || 0), 0)`. -/
def totalComments (posts : List IgPost) : Nat :=
  posts.foldl (fun sum post => sum + post.comment_count.getD 0) 0

/-- `totalLikes / recentPosts.length`. -/
def avgLikes (posts : List IgPost) : ℚ :=
  (totalLikes posts : ℚ) / (posts.length : ℚ)

/-- `totalComments / recentPosts.length`. -/
def avgComments (posts : List IgPost) : ℚ :=
  (totalComments posts : ℚ) / (posts.length : ℚ)

/-- Rounding to two decimal places: `parseFloat(x.toFixed(2))`. -/
def round2 (q : ℚ) : ℚ :=
  (round (q * 100) : ℚ) / 100

/-- The engagement rate computed by `handleCompareAccounts`: starts at
0, and is only assigned the formula when `followerCount > 0` and the
fetched recent posts are nonempty. -/
def compareEngagementRate (followerCount : Int) (recentPosts : List IgPost) : ℚ :=
  if followerCount > 0 then
    if 0 < recentPosts.length then
      ((avgLikes recentPosts + avgComments recentPosts) / (followerCount : ℚ)) * 100
    else 0
  else 0

/-- The displayed `engagementRate` field of a comparison entry:
`parseFloat(engagementRate.toFixed(2))`. -/
def compareDisplayedRate (followerCount : Int) (recentPosts : List IgPost) : ℚ :=
  round2 (compareEngagementRate followerCount recentPosts)

/-- `avgEngagementRate` of `handleGenerateReport` (line 728):
`followerCount > 0 ? ((avgLikesPerPost + avgCommentsPerPost) / followerCount) * 100 : 0`. -/
def reportAvgEngagementRate (followerCount : Int) (recentPosts : List IgPost) : ℚ :=
  if followerCount > 0 then
    ((avgLikes recentPosts + avgComments recentPosts) / (followerCount : ℚ)) * 100
  else 0

/-- The displayed `avgEngagementRate` of the report summary (line 761). -/
def reportDisplayedRate (followerCount : Int) (recentPosts : List IgPost) : ℚ :=
  round2 (reportAvgEngagementRate followerCount recentPosts)

/-! ## Claim C4 -/

/-- C4: engagement-rate computation is totally guarded against zero (or
non-positive) followers: both in `handleCompareAccounts` and in
`handleGenerateReport` the displayed rate is exactly 0 whenever
`followerCount` is not > 0 (over ℚ no NaN/Infinity can arise), and for
`followerCount > 0` with a nonempty post sample it equals
`((avgLikes + avgComments) / followerCount) * 100` rounded to two
decimal places. -/
theorem c4_engagement_rate_guarded :
    (∀ (fc : Int) (posts : List IgPost), ¬ 0 < fc →
      compareDisplayedRate fc posts = 0 ∧ reportDisplayedRate fc posts = 0) ∧
    (∀ (fc : Int) (posts : List IgPost), 0 < fc → posts ≠ [] →
      compareDisplayedRate fc posts =
        round2 (((avgLikes posts + avgComments posts) / (fc : ℚ)) * 100) ∧
      reportDisplayedRate fc posts =
        round2 (((avgLikes posts + avgComments posts) / (fc : ℚ)) * 100)) := by
  have hr0 : round2 0 = 0 := by
    simp [round2]
  constructor
  · intro fc posts hfc
    constructor
    · simp [compareDisplayedRate, compareEngagementRate, if_neg hfc, hr0]
    · simp [reportDisplayedRate, reportAvgEngagementRate, if_neg hfc, hr0]
  · intro fc posts hfc hne
    have hlen : 0 < posts.length := List.length_pos.mpr hne
    constructor
    · simp [compareDisplayedRate, compareEngagementRate, if_pos hfc, if_pos hlen]
    · simp [reportDisplayedRate, reportAvgEngagementRate, if_pos hfc]

/-- C4 witness: follower count 0 yields rate 0; follower count 2 with
one post (4 likes, 2 comments) yields the rounded formula value. -/
theorem c4_engagement_rate_guarded_witness :
    (compareDisplayedRate 0 [⟨some 4, some 2⟩] = 0 ∧
      reportDisplayedRate 0 [⟨some 4, some 2⟩] = 0) ∧
    compareDisplayedRate 2 [⟨some 4, some 2⟩] =
      round2 (((avgLikes [⟨some 4, some 2⟩] + avgComments [⟨some 4, some 2⟩]) / (2 : ℚ)) * 100) :=
  ⟨c4_engagement_rate_guarded.1 0 [⟨some 4, some 2⟩] (by decide),
    (c4_engagement_rate_guarded.2 2 [⟨some 4, some 2⟩] (by decide) (by decide)).1⟩

/-! ## Lead-criteria evaluation of `handleIdentifyLeads`

Translation of the per-user loop body (src/index.ts lines 599-659).
The remote enrichment fetch (lines 603-619) only swaps in a fuller
`userInfo` record or skips users whose follower count stays unknown
when `minFollowers` is set — the latter are equally excluded by the
`follower_count === undefined` branch of the check itself, so the
evaluation is modelled on the effective record in hand. JS truthiness
makes a numeric criterion supplied as `0` behave as absent
(`if (minFollowers && ...)`). -/

/-- Lead criteria: all three fields optional. -/
structure LeadCriteria where
  minComments : Option Nat := none
  minFollowers : Option Nat := none
  keywords : Option (List String) := none
deriving DecidableEq

/-- The user record the criteria are evaluated against. -/
structure LeadUserInfo where
  pk : Nat
  username : String
  follower_count : Option Nat := none
  biography : Option String := none
deriving DecidableEq

/-- JS truthiness of a `number | undefined` value: `undefined` and `0`
are falsy. -/
def numTruthy : Option Nat → Bool
  | none => false
  | some n => n != 0

/-- JS truthiness plus `length > 0` for the `keywords` array:
`keywords && keywords.length > 0`. -/
def kwListActive : Option (List String) → Bool
  | none => false
  | some l => decide (0 < l.length)

/-- `toLowerCase()` (ASCII). -/
def toLowerStr (s : String) : String :=
  String.mk (s.data.map Char.toLower)

/-- `s.includes(pat)`: substring test. -/
def strContains (s pat : String) : Bool :=
  s.data.tails.any (fun t => pat.data.isPrefixOf t)

/-- `minFollowers && (userInfo.follower_count === undefined ||
userInfo.follower_count < minFollowers)`. -/
def followersFails (criteria : LeadCriteria) (userInfo : LeadUserInfo) : Bool :=
  numTruthy criteria.minFollowers &&
    (userInfo.follower_count.isNone ||
      decide (userInfo.follower_count.getD 0 < criteria.minFollowers.getD 0))

/-- Reason string pushed when the follower check passes. -/
def followersReason (criteria : LeadCriteria) (userInfo : LeadUserInfo) : String :=
  "Followers: " ++ toString (userInfo.follower_count.getD 0) ++
    " (>=" ++ toString (criteria.minFollowers.getD 0) ++ ")"

/-- `minComments && userCommentCount < minComments`. -/
def commentsFails (criteria : LeadCriteria) (userComments : List String) : Bool :=
  numTruthy criteria.minComments &&
    decide (userComments.length < criteria.minComments.getD 0)

/-- Reason string pushed when the comment-count check passes. -/
def commentsReason (criteria : LeadCriteria) (userComments : List String) : String :=
  "Comments: " ++ toString userComments.length ++
    " (>=" ++ toString (criteria.minComments.getD 0) ++ ")"

/-- `keywords.filter(kw => bioLower.includes(kw.toLowerCase()) ||
commentsText.includes(kw.toLowerCase()))` where `commentsText` is the
space-joined lowercased comment list and `bioLower` the lowercased
biography (empty when absent). -/
def foundKeywords (criteria : LeadCriteria) (userInfo : LeadUserInfo)
    (userComments : List String) : List String :=
  (criteria.keywords.getD []).filter (fun kw =>
    strContains (toLowerStr (userInfo.biography.getD "")) (toLowerStr kw) ||
    strContains (toLowerStr (String.intercalate " " userComments)) (toLowerStr kw))

/-- The keyword criterion fails when it is active and no keyword matched. -/
def keywordsFails (criteria : LeadCriteria) (userInfo : LeadUserInfo)
    (userComments : List String) : Bool :=
  kwListActive criteria.keywords &&
    decide ((foundKeywords criteria userInfo userComments).length = 0)

/-- Reason string pushed when the keyword check passes. -/
def keywordsReason (criteria : LeadCriteria) (userInfo : LeadUserInfo)
    (userComments : List String) : String :=
  "Keywords found: [" ++
    String.intercalate ", " (foundKeywords criteria userInfo userComments) ++ "]"

/-- One `if (fails) meetsCriteria = false; else if (active)
reasons.push(reason)` step of the criteria chain. -/
def leadStep (state : Bool × List String) (fails active : Bool) (reason : String) :
    Bool × List String :=
  if fails then (false, state.2)
  else if active then (state.1, state.2 ++ [reason])
  else state

/-- The whole criteria evaluation for one user: final `meetsCriteria`
and accumulated `reasons` (followers, then comments, then keywords). -/
def evaluateLead (criteria : LeadCriteria) (userInfo : LeadUserInfo)
    (userComments : List String) : Bool × List String :=
  leadStep
    (leadStep
      (leadStep (true, [])
        (followersFails criteria userInfo) (numTruthy criteria.minFollowers)
        (followersReason criteria userInfo))
      (commentsFails criteria userComments) (numTruthy criteria.minComments)
      (commentsReason criteria userComments))
    (keywordsFails criteria userInfo userComments) (kwListActive criteria.keywords)
    (keywordsReason criteria userInfo userComments)

/-- Modelled from the spec's words for claim C5: a user satisfies the
criteria iff (minFollowers absent OR followerCount ≥ minFollowers) AND
(minComments absent OR comment count ≥ minComments) AND (keywords
absent/empty OR at least one keyword case-insensitively matches the
biography OR any single associated comment text). -/
def specLeadCriteriaSatisfied (criteria : LeadCriteria) (userInfo : LeadUserInfo)
    (userComments : List String) : Bool :=
  (match criteria.minFollowers with
   | none => true
   | some m =>
       match userInfo.follower_count with
       | none => false
       | some fc => decide (m ≤ fc)) &&
  (match criteria.minComments with
   | none => true
   | some m => decide (m ≤ userComments.length)) &&
  (match criteria.keywords with
   | none => true
   | some kws =>
       kws.isEmpty ||
         kws.any (fun kw =>
           strContains (toLowerStr (userInfo.biography.getD "")) (toLowerStr kw) ||
           userComments.any (fun c => strContains (toLowerStr c) (toLowerStr kw))))

lemma leadStep_fst (s : Bool × List String) (f a : Bool) (r : String) :
    (leadStep s f a r).1 = (!f && s.1) := by
  cases f <;> cases a <;> simp [leadStep]

lemma leadStep_snd (s : Bool × List String) (f a : Bool) (r : String) :
    (leadStep s f a r).2 = if (!f && a) then s.2 ++ [r] else s.2 := by
  cases f <;> cases a <;> simp [leadStep]

lemma evaluateLead_fst (criteria : LeadCriteria) (userInfo : LeadUserInfo)
    (userComments : List String) :
    (evaluateLead criteria userInfo userComments).1 = true ↔
      followersFails criteria userInfo = false ∧
      commentsFails criteria userComments = false ∧
      keywordsFails criteria userInfo userComments = false := by
  unfold evaluateLead
  rw [leadStep_fst, leadStep_fst, leadStep_fst]
  cases followersFails criteria userInfo <;>
    cases commentsFails criteria userComments <;>
    cases keywordsFails criteria userInfo userComments <;> simp

lemma followersFails_eq_false_iff (criteria : LeadCriteria) (userInfo : LeadUserInfo) :
    followersFails criteria userInfo = false ↔
      (numTruthy criteria.minFollowers = true →
        ∃ fc, userInfo.follower_count = some fc ∧ criteria.minFollowers.getD 0 ≤ fc) := by
  unfold followersFails
  cases hm : numTruthy criteria.minFollowers
  · simp
  · cases hf : userInfo.follower_count with
    | none => simp [hf]
    | some fc => simp [hf]

lemma commentsFails_eq_false_iff (criteria : LeadCriteria) (userComments : List String) :
    commentsFails criteria userComments = false ↔
      (numTruthy criteria.minComments = true →
        criteria.minComments.getD 0 ≤ userComments.length) := by
  unfold commentsFails
  cases hm : numTruthy criteria.minComments <;> simp

lemma keywordsFails_eq_false_iff (criteria : LeadCriteria) (userInfo : LeadUserInfo)
    (userComments : List String) :
    keywordsFails criteria userInfo userComments = false ↔
      (∀ kws, criteria.keywords = some kws → kws ≠ [] →
        ∃ kw ∈ kws,
          (strContains (toLowerStr (userInfo.biography.getD "")) (toLowerStr kw) = true ∨
           strContains (toLowerStr (String.intercalate " " userComments)) (toLowerStr kw) = true)) := by
  unfold keywordsFails kwListActive foundKeywords
  cases hk : criteria.keywords with
  | none => simp
  | some kws =>
      simp only [Option.getD_some]
      by_cases hne : kws = []
      · subst hne
        simp
      · have hlen : 0 < kws.length := List.length_pos.mpr hne
        rw [show decide (0 < kws.length) = true by simpa using hlen]
        simp only [Bool.true_and, decide_eq_false_iff_not]
        rw [List.length_eq_zero, List.filter_eq_nil_iff]
        push_neg
        constructor
        · rintro ⟨kw, hmem, hp⟩ kws' hkw hne'
          injection hkw with h'
          subst h'
          exact ⟨kw, hmem, by simpa using hp⟩
        · intro h
          rcases h kws rfl hne with ⟨kw, hmem, hval⟩
          refine ⟨kw, hmem, ?_⟩
          rcases hval with hv | hv <;> simp [hv]

/-! ## Claim C5 -/

/-- C5 counterexample: the source matches keywords against the
space-joined comment text, not against each comment text separately.
With the single keyword "b c" and comments `["ab", "cd"]` the joined
text "ab cd" contains "b c", so the code includes the user as a lead,
while the claim's per-comment matching (no comment and no biography
contains "b c") excludes the user. -/
theorem c5_counterexample :
    (evaluateLead ⟨none, none, some ["b c"]⟩ ⟨1, "u", none, none⟩ ["ab", "cd"]).1 = true ∧
    specLeadCriteriaSatisfied ⟨none, none, some ["b c"]⟩ ⟨1, "u", none, none⟩
      ["ab", "cd"] = false := by
  decide

/-- C5 amended: a user is included as a lead iff (minFollowers
unspecified — absent or 0, per JS truthiness, see C10 — OR
followerCount present and ≥ minFollowers) AND (minComments unspecified
OR comment count ≥ minComments) AND (keywords absent/empty OR at least
one keyword case-insensitively matches the biography or the
space-joined concatenation of the comment texts, so a multi-word
keyword may also match across comment boundaries); each satisfied
specified sub-criterion is recorded as a reason (followers, comments,
keywords, in that order) and unspecified criteria contribute none. -/
theorem c5_amended (criteria : LeadCriteria) (userInfo : LeadUserInfo)
    (userComments : List String) :
    ((evaluateLead criteria userInfo userComments).1 = true ↔
      (numTruthy criteria.minFollowers = true →
        ∃ fc, userInfo.follower_count = some fc ∧ criteria.minFollowers.getD 0 ≤ fc) ∧
      (numTruthy criteria.minComments = true →
        criteria.minComments.getD 0 ≤ userComments.length) ∧
      (∀ kws, criteria.keywords = some kws → kws ≠ [] →
        ∃ kw ∈ kws,
          (strContains (toLowerStr (userInfo.biography.getD "")) (toLowerStr kw) = true ∨
           strContains (toLowerStr (String.intercalate " " userComments)) (toLowerStr kw) = true))) ∧
    ((evaluateLead criteria userInfo userComments).1 = true →
      (evaluateLead criteria userInfo userComments).2 =
        (if numTruthy criteria.minFollowers then [followersReason criteria userInfo] else []) ++
        (if numTruthy criteria.minComments then [commentsReason criteria userComments] else []) ++
        (if kwListActive criteria.keywords
          then [keywordsReason criteria userInfo userComments] else [])) := by
  constructor
  · rw [evaluateLead_fst, followersFails_eq_false_iff, commentsFails_eq_false_iff,
      keywordsFails_eq_false_iff]
  · intro hmeets
    obtain ⟨hf1, hf2, hf3⟩ := (evaluateLead_fst criteria userInfo userComments).mp hmeets
    unfold evaluateLead
    rw [leadStep_snd, leadStep_snd, leadStep_snd, hf1, hf2, hf3]
    cases numTruthy criteria.minFollowers <;>
      cases numTruthy criteria.minComments <;>
      cases kwListActive criteria.keywords <;> simp

/-- C5 amended, witness at the spec's own example: minFollowers 100,
minComments 2, keywords ["demo"], a user with 150 followers and three
comments, one containing "Demo product": included, with all three
reasons recorded. -/
theorem c5_amended_witness :
    (evaluateLead ⟨some 2, some 100, some ["demo"]⟩ ⟨7, "u", some 150, none⟩
        ["Demo product", "great", "more"]).1 = true ∧
    (evaluateLead ⟨some 2, some 100, some ["demo"]⟩ ⟨7, "u", some 150, none⟩
        ["Demo product", "great", "more"]).2.length = 3 := by
  have h := c5_amended ⟨some 2, some 100, some ["demo"]⟩ ⟨7, "u", some 150, none⟩
    ["Demo product", "great", "more"]
  have hmeets : (evaluateLead ⟨some 2, some 100, some ["demo"]⟩ ⟨7, "u", some 150, none⟩
      ["Demo product", "great", "more"]).1 = true := by
    refine h.1.mpr ⟨?_, ?_, ?_⟩
    · intro _
      exact ⟨150, rfl, by decide⟩
    · intro _
      decide
    · intro kws hkws _
      injection hkws with hkws
      subst hkws
      exact ⟨"demo", by decide, Or.inr (by decide)⟩
  refine ⟨hmeets, ?_⟩
  rw [h.2 hmeets]
  decide

/-! ## Claim C10 -/

/-- C10: a numeric lead criterion explicitly supplied as 0
(`criteria.minFollowers = 0` or `criteria.minComments = 0`) is falsy in
JS, so `handleIdentifyLeads` treats it exactly as an absent criterion:
the whole per-user evaluation (inclusion decision and recorded reasons)
is identical to the one with the criterion omitted. -/
theorem c10_zero_threshold_treated_as_absent :
    (∀ (mc : Option Nat) (kw : Option (List String)) (u : LeadUserInfo)
        (cm : List String),
      evaluateLead ⟨mc, some 0, kw⟩ u cm = evaluateLead ⟨mc, none, kw⟩ u cm) ∧
    (∀ (mf : Option Nat) (kw : Option (List String)) (u : LeadUserInfo)
        (cm : List String),
      evaluateLead ⟨some 0, mf, kw⟩ u cm = evaluateLead ⟨none, mf, kw⟩ u cm) := by
  constructor <;> intro a kw u cm <;> rfl

/-! ## Date-range filtering of `handleGenerateReport`

src/index.ts lines 702-710: `start` is the parsed epoch-second
timestamp of `startDate` (or null), `end` is the parsed timestamp of
`endDate` plus 24*60*60 - 1 = 86399 seconds (or null); a post passes
when `(start ? postTimestamp >= start : true) && (end ? postTimestamp
<= end : true)`. The `cond ? ... : true` tests JS truthiness of the
number, so a bound equal to 0 is skipped like null. -/

/-- A fetched post as seen by the date filter. -/
structure ReportPost where
  taken_at : Int
deriving DecidableEq

/-- JS truthiness of a `number | null` value: `null` and `0` are falsy. -/
def intTruthy : Option Int → Bool
  | none => false
  | some n => n != 0

/-- The `recentPosts` filter: `start`/`endDay` are the parsed epoch
seconds of `startDate` / `endDate` (none when the argument is absent). -/
def filterPostsByDate (start endDay : Option Int) (posts : List ReportPost) :
    List ReportPost :=
  let e : Option Int := endDay.map (fun v => v + 86399)
  posts.filter fun post =>
    (if intTruthy start then decide (post.taken_at ≥ start.getD 0) else true) &&
    (if intTruthy e then decide (post.taken_at ≤ e.getD 0) else true)

/-- Modelled from the spec's words for claim C6: a post is included iff
its timestamp is ≥ start-of-startDate (when given) and ≤ endDate's
timestamp + 86399 (when given); an absent bound imposes no constraint. -/
def specDateIncluded (start endDay : Option Int) (post : ReportPost) : Bool :=
  (match start with
   | none => true
   | some s => decide (s ≤ post.taken_at)) &&
  (match endDay with
   | none => true
   | some m => decide (post.taken_at ≤ m + 86399))

/-! ## Claim C6 -/

/-- C6 counterexample: when startDate parses to the Unix epoch
(timestamp 0) the computed `start` bound is falsy in JS, so the start
constraint is silently skipped: a post timestamped -5 (before the
start of startDate) is still included by the code, while the claim
requires it to be excluded. -/
theorem c6_counterexample :
    filterPostsByDate (some 0) none [⟨-5⟩] = [⟨-5⟩] ∧
    specDateIncluded (some 0) none ⟨-5⟩ = false := by
  decide

/-- C6 amended: the claimed inclusion rule — timestamp ≥ start of
startDate (when given) and ≤ endDate's timestamp + 86399 inclusive
(when given), absent bounds unconstrained — holds except when a
computed bound is exactly 0, which JS truthiness treats like an absent
bound; under the hypotheses that neither bound is 0, membership in the
filtered list is exactly the claimed rule (in particular a post at
23:59:59 of endDate is included and one second later excluded). -/
theorem c6_amended (start endDay : Option Int) (posts : List ReportPost)
    (post : ReportPost) (hs : start ≠ some 0)
    (he : ∀ m, endDay = some m → m + 86399 ≠ 0) :
    post ∈ filterPostsByDate start endDay posts ↔
      post ∈ posts ∧ specDateIncluded start endDay post = true := by
  unfold filterPostsByDate specDateIncluded
  rw [List.mem_filter]
  refine and_congr_right fun _ => ?_
  cases start with
  | none =>
      cases endDay with
      | none => simp [intTruthy]
      | some m =>
          have hm0 : m + 86399 ≠ 0 := he m rfl
          simp [intTruthy, hm0]
  | some s =>
      have hs0 : s ≠ 0 := fun h => hs (by rw [h])
      cases endDay with
      | none => simp [intTruthy, hs0, ge_iff_le]
      | some m =>
          have hm0 : m + 86399 ≠ 0 := he m rfl
          simp [intTruthy, hs0, hm0, ge_iff_le]

/-- C6 amended, witness: start 100, end-day 200, a post at 150 is in
the filtered list and satisfies the claimed rule. -/
theorem c6_amended_witness :
    (⟨150⟩ : ReportPost) ∈ filterPostsByDate (some 100) (some 200) [⟨150⟩] ↔
      (⟨150⟩ : ReportPost) ∈ ([⟨150⟩] : List ReportPost) ∧
        specDateIncluded (some 100) (some 200) ⟨150⟩ = true :=
  c6_amended (some 100) (some 200) [⟨150⟩] ⟨150⟩ (by decide)
    (fun m h => by cases h; decide)

/-! ## Account comparison of `handleCompareAccounts`

src/index.ts lines 363-426: after validating the handle list, each
account is processed inside its own try/catch; a failure of any of the
per-account remote calls (`getIdByUsername`, `user.info`, or the
recent-posts fetch used for the engagement rate) is captured as an
`{error}` entry for that account and the loop continues. -/

/-- Error classes of the remote client, mirroring the JS error names
(`IgNotFoundError`, `IgLoginRequiredError`, `IgCheckpointError`,
`IgRequestsLimitError`, anything else). -/
inductive IgError where
  | notFound (msg : String)
  | loginRequired (msg : String)
  | checkpoint (msg : String)
  | requestsLimit (msg : String)
  | other (msg : String)
deriving DecidableEq

/-- `error.message`. -/
def IgError.message : IgError → String
  | .notFound m => m
  | .loginRequired m => m
  | .checkpoint m => m
  | .requestsLimit m => m
  | .other m => m

/-- Character class of the handle regex `^[A-Za-z0-9._]+$`. -/
def validUsernameChar (c : Char) : Bool :=
  c.isAlpha || c.isDigit || c = '.' || c = '_'

/-- `isValidUsername`: the regex `^[A-Za-z0-9._]+$`. -/
def isValidUsername (s : String) : Bool :=
  !s.data.isEmpty && s.data.all validUsernameChar

/-- The user profile fields `handleCompareAccounts` reads. -/
structure IgUserData where
  full_name : String
  is_private : Bool
  is_verified : Bool
  follower_count : Int
  following_count : Int
  media_count : Int
deriving DecidableEq

/-- The remote client capability used by the comparison: each call may
fail with an `IgError` (a thrown JS exception). -/
structure RemoteClient where
  getIdByUsername : String → Except IgError Nat
  userInfo : Nat → Except IgError IgUserData
  userFeedItems : Nat → Except IgError (List IgPost)

/-- A successful per-account comparison entry. -/
structure CompareMetrics where
  userId : Nat
  fullName : String
  isPrivate : Bool
  isVerified : Bool
  followers : Option Int
  following : Option Int
  posts : Option Int
  engagementRate : Option ℚ
deriving DecidableEq

/-- A per-account result: normal metrics or an `{error}` entry. -/
inductive CompareEntry where
  | metrics (m : CompareMetrics)
  | errorEntry (msg : String)
deriving DecidableEq

/-- The body of the per-account `try` block: the chain of remote calls
and the metrics object it builds (lines 379-412). -/
def compareOneRes (rc : RemoteClient) (metrics : List String) (username : String) :
    Except IgError CompareMetrics := do
  let userId ← rc.getIdByUsername username
  let info ← rc.userInfo userId
  let engagementRate : ℚ ←
    if info.follower_count > 0 then do
      let recentPosts ← rc.userFeedItems userId
      pure (if 0 < recentPosts.length then
        ((avgLikes recentPosts + avgComments recentPosts) / (info.follower_count : ℚ)) * 100
      else 0)
    else pure 0
  pure {
    userId := userId
    fullName := info.full_name
    isPrivate := info.is_private
    isVerified := info.is_verified
    followers := if metrics.contains "followers" then some info.follower_count else none
    following := if metrics.contains "following" then some info.following_count else none
    posts := if metrics.contains "posts" then some info.media_count else none
    engagementRate := if metrics.contains "engagement" then some (round2 engagementRate) else none
  }

/-- The `catch` block's entry: `Account not found.` for
`IgNotFoundError`, otherwise `Failed to fetch data: ...` (lines 416-422). -/
def compareErrMsg : IgError → String
  | .notFound _ => "Account not found."
  | e => "Failed to fetch data: " ++ e.message

/-- One loop iteration's entry for `comparisonResults[username]`. -/
def compareOne (rc : RemoteClient) (metrics : List String) (username : String) :
    CompareEntry :=
  match compareOneRes rc metrics username with
  | .ok m => .metrics m
  | .error e => .errorEntry (compareErrMsg e)

/-- JS object property assignment `comparisonResults[username] = v` on
an insertion-ordered association list. -/
def upsertEntry (m : List (String × CompareEntry)) (k : String) (v : CompareEntry) :
    List (String × CompareEntry) :=
  if m.any (fun e => e.1 = k) then
    m.map (fun e => if e.1 = k then (k, v) else e)
  else m ++ [(k, v)]

/-- Property read `comparisonResults[k]`. -/
def lookupEntry (m : List (String × CompareEntry)) (k : String) : Option CompareEntry :=
  (m.find? (fun e => e.1 = k)).map (fun e => e.2)

/-- Error taxonomy of the MCP boundary. -/
inductive ErrCode where
  | invalidParams
  | internalError
  | methodNotFound
deriving DecidableEq

/-- An `McpError`. -/
structure McpError where
  code : ErrCode
  message : String
deriving DecidableEq

/-- `handleCompareAccounts`: input validation, then the per-account
loop; the whole call only fails on invalid input, never on a
per-account remote failure. -/
def handleCompareAccounts (rc : RemoteClient) (accounts : List String)
    (metrics : List String) : Except McpError (List (String × CompareEntry)) :=
  if accounts.isEmpty then
    .error ⟨.invalidParams, "At least one account handle must be provided."⟩
  else if accounts.any (fun acc => !isValidUsername acc) then
    .error ⟨.invalidParams, "One or more account handles are invalid."⟩
  else
    .ok (accounts.foldl (fun res u => upsertEntry res u (compareOne rc metrics u)) [])

lemma find_map_upsert (k : String) (v : CompareEntry) :
    ∀ m : List (String × CompareEntry),
      (m.map (fun e => if e.1 = k then (k, v) else e)).find? (fun e => e.1 = k) =
        if m.any (fun e => e.1 = k) then some (k, v) else none
  | [] => by simp
  | e :: rest => by
      by_cases he : e.1 = k
      · rw [List.map_cons, if_pos he, List.find?_cons_of_pos _ (by simp), List.any_cons,
          show decide (e.1 = k) = true by simp [he]]
        simp
      · rw [List.map_cons, if_neg he, List.find?_cons_of_neg _ (by simp [he]), List.any_cons,
          show decide (e.1 = k) = false by simp [he]]
        simp only [Bool.false_or]
        exact find_map_upsert k v rest

lemma lookupEntry_upsert_self (m : List (String × CompareEntry)) (k : String)
    (v : CompareEntry) :
    lookupEntry (upsertEntry m k v) k = some v := by
  unfold upsertEntry lookupEntry
  by_cases hany : m.any (fun e => e.1 = k)
  · rw [if_pos hany, find_map_upsert, if_pos hany]
    rfl
  · rw [if_neg hany, List.find?_append]
    have hnone : m.find? (fun e => e.1 = k) = none := by
      rw [List.find?_eq_none]
      intro e hmem
      rcases List.any_eq_false.mp (Bool.eq_false_iff.mpr hany) e hmem with h
      simpa using h
    simp [hnone]

lemma find_map_upsert_ne (k u : String) (v : CompareEntry) (hne : k ≠ u) :
    ∀ m : List (String × CompareEntry),
      (m.map (fun e => if e.1 = k then (k, v) else e)).find? (fun e => e.1 = u) =
        m.find? (fun e => e.1 = u)
  | [] => by simp
  | e :: rest => by
      by_cases hek : e.1 = k
      · have heu : ¬ e.1 = u := by rw [hek]; exact hne
        have h1 : decide (((k, v) : String × CompareEntry).1 = u) = false := by
          simp [hne]
        have h2 : decide (e.1 = u) = false := by simp [heu]
        simp only [List.map_cons, if_pos hek, List.find?_cons, h1, h2]
        exact find_map_upsert_ne k u v hne rest
      · simp only [List.map_cons, if_neg hek, List.find?_cons]
        by_cases heu : e.1 = u
        · simp [heu]
        · have h2 : decide (e.1 = u) = false := by simp [heu]
          simp only [h2]
          exact find_map_upsert_ne k u v hne rest

lemma lookupEntry_upsert_ne (m : List (String × CompareEntry)) (k u : String)
    (v : CompareEntry) (hne : k ≠ u) :
    lookupEntry (upsertEntry m k v) u = lookupEntry m u := by
  unfold upsertEntry lookupEntry
  by_cases hany : m.any (fun e => e.1 = k)
  · rw [if_pos hany, find_map_upsert_ne k u v hne]
  · rw [if_neg hany, List.find?_append]
    have h1 : (([(k, v)] : List (String × CompareEntry)).find? (fun e => e.1 = u)) = none := by
      simp [hne]
    cases hf : m.find? (fun e => e.1 = u) with
    | none => simp [hf, h1]
    | some e => simp [hf]

lemma lookupEntry_fold_keeps (rc : RemoteClient) (metrics : List String) :
    ∀ (accounts : List String) (m : List (String × CompareEntry)) (u : String),
      lookupEntry m u = some (compareOne rc metrics u) →
      lookupEntry
        (accounts.foldl (fun res a => upsertEntry res a (compareOne rc metrics a)) m) u =
        some (compareOne rc metrics u)
  | [], m, u, h => h
  | a :: rest, m, u, h => by
      rw [List.foldl_cons]
      refine lookupEntry_fold_keeps rc metrics rest _ u ?_
      by_cases hau : a = u
      · subst hau
        exact lookupEntry_upsert_self m a (compareOne rc metrics a)
      · rw [lookupEntry_upsert_ne m a u _ hau]
        exact h

lemma lookupEntry_fold_mem (rc : RemoteClient) (metrics : List String) :
    ∀ (accounts : List String) (m : List (String × CompareEntry)) (u : String),
      u ∈ accounts →
      lookupEntry
        (accounts.foldl (fun res a => upsertEntry res a (compareOne rc metrics a)) m) u =
        some (compareOne rc metrics u)
  | a :: rest, m, u, hu => by
      rw [List.foldl_cons]
      rcases List.mem_cons.mp hu with hua | hur
      · subst hua
        exact lookupEntry_fold_keeps rc metrics rest _ u
          (lookupEntry_upsert_self m u (compareOne rc metrics u))
      · exact lookupEntry_fold_mem rc metrics rest _ u hur

/-! ## Claim C7 -/

/-- C7: `handleCompareAccounts` is resilient to any single account's
lookup failing. For every remote client and nonempty list of valid
handles, the call returns a result map (it does not fail); every
requested account has an entry, which is the normal metrics object when
the account's remote chain succeeded and an `{error}` entry when any of
its remote calls threw (NotFound or otherwise) — the other accounts are
unaffected. -/
theorem c7_compare_accounts_resilient (rc : RemoteClient) (accounts : List String)
    (metrics : List String) (hne : accounts ≠ [])
    (hvalid : ∀ a ∈ accounts, isValidUsername a = true) :
    ∃ res, handleCompareAccounts rc accounts metrics = .ok res ∧
      ∀ u ∈ accounts,
        (∃ m, compareOneRes rc metrics u = .ok m ∧
          lookupEntry res u = some (.metrics m)) ∨
        (∃ e, compareOneRes rc metrics u = .error e ∧
          lookupEntry res u = some (.errorEntry (compareErrMsg e))) := by
  refine ⟨accounts.foldl (fun res u => upsertEntry res u (compareOne rc metrics u)) [], ?_, ?_⟩
  · unfold handleCompareAccounts
    rw [if_neg (by simpa using hne), if_neg ?hv]
    case hv =>
      rw [Bool.not_eq_true, List.any_eq_false]
      intro a ha
      simp [hvalid a ha]
  · intro u hu
    have hlook := lookupEntry_fold_mem rc metrics accounts [] u hu
    cases hres : compareOneRes rc metrics u with
    | ok m =>
        left
        refine ⟨m, rfl, ?_⟩
        rw [hlook]
        unfold compareOne
        rw [hres]
    | error e =>
        right
        refine ⟨e, rfl, ?_⟩
        rw [hlook]
        unfold compareOne
        rw [hres]

/-- A concrete remote client for the C7 witness: `realuser` resolves,
any other handle raises NotFound. -/
def compareWitnessClient : RemoteClient where
  getIdByUsername := fun u =>
    if u = "realuser" then .ok 1 else .error (.notFound "User not found")
  userInfo := fun _ => .ok ⟨"Real User", false, false, 10, 5, 3⟩
  userFeedItems := fun _ => .ok [⟨some 4, some 2⟩]

/-- C7 witness: `["realuser", "doesnotexist123456"]` yields an ok
result with a metrics entry for the first and an error entry for the
second. -/
theorem c7_compare_accounts_resilient_witness :
    ∃ res, handleCompareAccounts compareWitnessClient
        ["realuser", "doesnotexist123456"] ["followers", "engagement", "posts"] = .ok res ∧
      ∀ u ∈ ["realuser", "doesnotexist123456"],
        (∃ m, compareOneRes compareWitnessClient ["followers", "engagement", "posts"] u = .ok m ∧
          lookupEntry res u = some (.metrics m)) ∨
        (∃ e, compareOneRes compareWitnessClient ["followers", "engagement", "posts"] u = .error e ∧
          lookupEntry res u = some (.errorEntry (compareErrMsg e))) :=
  c7_compare_accounts_resilient compareWitnessClient
    ["realuser", "doesnotexist123456"] ["followers", "engagement", "posts"]
    (by decide) (by decide)

/-! ## Post entity resolution: `getMediaIdFromUrl`

src/index.ts lines 777-824. The shortcode is extracted with the regex
`/\/p\/([A-Za-z0-9_-]+)/` (first position where `/p/` is followed by at
least one shortcode character; the capture is the maximal run).
`ig.media.getByUrl(url)` is then tried: if it *throws* (including the
method being absent), `mediaId` falls back to the shortcode; if it
*returns* but without a truthy `pk`, `mediaId` stays null and the
function returns null. -/

/-- The character class `[A-Za-z0-9_-]`. -/
def shortcodeChar (c : Char) : Bool :=
  c.isAlpha || c.isDigit || c = '_' || c = '-'

/-- Leftmost match of `/\/p\/([A-Za-z0-9_-]+)/` over a character list:
at each position, `/p/` followed by a nonempty run of shortcode
characters yields the run, otherwise the search advances one character. -/
def extractFrom : List Char → Option (List Char)
  | [] => none
  | c :: t =>
      if c = '/' ∧ t.take 2 = ['p', '/'] then
        if ((t.drop 2).takeWhile shortcodeChar).isEmpty then extractFrom t
        else some ((t.drop 2).takeWhile shortcodeChar)
      else extractFrom t

/-- `extractPostIdFromUrl`: the captured shortcode, or `''` with no match. -/
def extractPostIdFromUrl (url : String) : String :=
  match extractFrom url.data with
  | some run => String.mk run
  | none => ""

/-- `isValidPostUrl`: the regex
`^https:\/\/(www\.)?instagram\.com\/p\/[A-Za-z0-9_-]+\/?` under `test`
(an unanchored tail: prefix `https://instagram.com/p/` or
`https://www.instagram.com/p/` followed by at least one shortcode
character). -/
def isValidPostUrl (url : String) : Bool :=
  (("https://instagram.com/p/".data.isPrefixOf url.data) &&
    (match url.data.drop "https://instagram.com/p/".data.length with
     | c :: _ => shortcodeChar c
     | [] => false)) ||
  (("https://www.instagram.com/p/".data.isPrefixOf url.data) &&
    (match url.data.drop "https://www.instagram.com/p/".data.length with
     | c :: _ => shortcodeChar c
     | [] => false))

/-- The part of the `getByUrl` response the helper reads. -/
structure MediaInfo where
  pk : Option String
deriving DecidableEq

/-- JS truthiness of `mediaInfo.pk`: absent or empty is falsy. -/
def pkTruthy : Option String → Bool
  | none => false
  | some s => !(s = "")

/-- `getMediaIdFromUrl`, parametrised by the remote `getByUrl` call
(`.error` models a thrown exception or an absent method, `.ok none` a
call that resolved without media info). -/
def getMediaIdFromUrl (getByUrl : String → Except String (Option MediaInfo))
    (url : String) : Option String :=
  let shortcode := extractPostIdFromUrl url
  if shortcode = "" then none
  else
    let mediaId : Option String :=
      match getByUrl url with
      | .ok mi =>
          match mi with
          | some m => if pkTruthy m.pk then m.pk else none
          | none => none
      | .error _ => some shortcode
    match mediaId with
    | some m => some m
    | none => none

lemma extractFrom_cons (c : Char) (t : List Char) :
    extractFrom (c :: t) =
      if c = '/' ∧ t.take 2 = ['p', '/'] then
        if ((t.drop 2).takeWhile shortcodeChar).isEmpty then extractFrom t
        else some ((t.drop 2).takeWhile shortcodeChar)
      else extractFrom t := rfl

lemma extractFrom_skip2 (c d e : Char) (t : List Char) (h : ¬(d = 'p' ∧ e = '/')) :
    extractFrom (c :: d :: e :: t) = extractFrom (d :: e :: t) := by
  rw [extractFrom_cons]
  rw [if_neg]
  rintro ⟨-, h2⟩
  simp only [List.take_succ_cons, List.take_zero] at h2
  exact h (by injection h2 with h2a h2b; injection h2b with h2b; exact ⟨h2a, h2b⟩)

lemma extractFrom_hit (c : Char) (t : List Char) (hc : shortcodeChar c = true) :
    extractFrom ('/' :: 'p' :: '/' :: c :: t) = some ((c :: t).takeWhile shortcodeChar) := by
  rw [extractFrom_cons]
  rw [if_pos ⟨rfl, rfl⟩]
  have hrun : (('p' :: '/' :: c :: t).drop 2).takeWhile shortcodeChar =
      c :: t.takeWhile shortcodeChar := by
    simp [List.takeWhile_cons, hc]
  rw [hrun]
  simp [List.takeWhile_cons, hc]

lemma extractFrom_valid1 (c : Char) (t : List Char) (hc : shortcodeChar c = true) :
    extractFrom ("https://instagram.com/p/".data ++ c :: t) =
      some ((c :: t).takeWhile shortcodeChar) := by
  have hdata : "https://instagram.com/p/".data =
      ['h', 't', 't', 'p', 's', ':', '/', '/', 'i', 'n', 's', 't', 'a', 'g', 'r',
       'a', 'm', '.', 'c', 'o', 'm', '/', 'p', '/'] := rfl
  rw [hdata]
  simp only [List.cons_append, List.nil_append]
  repeat rw [extractFrom_skip2 _ _ _ _ (by decide)]
  exact extractFrom_hit c t hc

lemma extractFrom_valid2 (c : Char) (t : List Char) (hc : shortcodeChar c = true) :
    extractFrom ("https://www.instagram.com/p/".data ++ c :: t) =
      some ((c :: t).takeWhile shortcodeChar) := by
  have hdata : "https://www.instagram.com/p/".data =
      ['h', 't', 't', 'p', 's', ':', '/', '/', 'w', 'w', 'w', '.', 'i', 'n', 's',
       't', 'a', 'g', 'r', 'a', 'm', '.', 'c', 'o', 'm', '/', 'p', '/'] := rfl
  rw [hdata]
  simp only [List.cons_append, List.nil_append]
  repeat rw [extractFrom_skip2 _ _ _ _ (by decide)]
  exact extractFrom_hit c t hc

lemma extract_of_valid (url : String) (hvalid : isValidPostUrl url = true) :
    ∃ run, extractFrom url.data = some run ∧ run ≠ [] ∧
      extractPostIdFromUrl url = String.mk run := by
  unfold isValidPostUrl at hvalid
  rw [Bool.or_eq_true, Bool.and_eq_true, Bool.and_eq_true] at hvalid
  rcases hvalid with ⟨hpre, hhead⟩ | ⟨hpre, hhead⟩
  · rcases List.isPrefixOf_iff_prefix.mp hpre with ⟨t, ht⟩
    rw [← ht, List.drop_left] at hhead
    cases t with
    | nil => simp at hhead
    | cons c t' =>
        have hc : shortcodeChar c = true := by simpa using hhead
        refine ⟨(c :: t').takeWhile shortcodeChar, ?_, ?_, ?_⟩
        · rw [← ht]
          exact extractFrom_valid1 c t' hc
        · simp [List.takeWhile_cons, hc]
        · unfold extractPostIdFromUrl
          rw [← ht, extractFrom_valid1 c t' hc]
  · rcases List.isPrefixOf_iff_prefix.mp hpre with ⟨t, ht⟩
    rw [← ht, List.drop_left] at hhead
    cases t with
    | nil => simp at hhead
    | cons c t' =>
        have hc : shortcodeChar c = true := by simpa using hhead
        refine ⟨(c :: t').takeWhile shortcodeChar, ?_, ?_, ?_⟩
        · rw [← ht]
          exact extractFrom_valid2 c t' hc
        · simp [List.takeWhile_cons, hc]
        · unfold extractPostIdFromUrl
          rw [← ht, extractFrom_valid2 c t' hc]

/-! ## Claim C8 -/

/-- C8 counterexample: resolution does not always fall back to the
shortcode. For the syntactically valid URL
`https://instagram.com/p/ABC/`, a `getByUrl` lookup that *succeeds but
returns no media info* (one of the claim's "not returning an id"
failure modes) leaves `mediaId` null, and `getMediaIdFromUrl` returns
null — the operation then fails instead of using the shortcode `ABC`. -/
theorem c8_counterexample :
    isValidPostUrl "https://instagram.com/p/ABC/" = true ∧
    extractPostIdFromUrl "https://instagram.com/p/ABC/" = "ABC" ∧
    getMediaIdFromUrl (fun _ => .ok none) "https://instagram.com/p/ABC/" = none := by
  decide

/-- C8 amended: for every syntactically valid post URL the extracted
shortcode is nonempty, and the shortcode fallback applies exactly when
the URL-to-media lookup *throws* (including the method being absent):
then resolution returns the shortcode as the opaque id. When the
lookup returns a truthy pk, that pk is returned; but when the lookup
succeeds without producing a truthy id, resolution returns null
(failure) rather than falling back. -/
theorem c8_amended (url : String) (hvalid : isValidPostUrl url = true) :
    extractPostIdFromUrl url ≠ "" ∧
    (∀ (f : String → Except String (Option MediaInfo)) (msg : String),
      f url = .error msg →
      getMediaIdFromUrl f url = some (extractPostIdFromUrl url)) ∧
    (∀ (f : String → Except String (Option MediaInfo)) (p : String),
      f url = .ok (some ⟨some p⟩) → p ≠ "" →
      getMediaIdFromUrl f url = some p) ∧
    (∀ f : String → Except String (Option MediaInfo),
      f url = .ok none → getMediaIdFromUrl f url = none) := by
  obtain ⟨run, hex, hne, heq⟩ := extract_of_valid url hvalid
  have hsc : extractPostIdFromUrl url ≠ "" := by
    rw [heq]
    intro h
    have := congrArg String.data h
    simp at this
    exact hne this
  refine ⟨hsc, ?_, ?_, ?_⟩
  · intro f msg hf
    unfold getMediaIdFromUrl
    rw [if_neg hsc, hf]
  · intro f p hf hp
    unfold getMediaIdFromUrl
    rw [if_neg hsc, hf]
    simp [pkTruthy, hp]
  · intro f hf
    unfold getMediaIdFromUrl
    rw [if_neg hsc, hf]

/-- C8 amended, witness at `https://www.instagram.com/p/Xy-9/extra`:
a throwing lookup yields the shortcode `Xy-9`, a truthy pk is passed
through, and an id-less success yields null. -/
theorem c8_amended_witness :
    extractPostIdFromUrl "https://www.instagram.com/p/Xy-9/extra" ≠ "" ∧
    (∀ (f : String → Except String (Option MediaInfo)) (msg : String),
      f "https://www.instagram.com/p/Xy-9/extra" = .error msg →
      getMediaIdFromUrl f "https://www.instagram.com/p/Xy-9/extra" =
        some (extractPostIdFromUrl "https://www.instagram.com/p/Xy-9/extra")) ∧
    (∀ (f : String → Except String (Option MediaInfo)) (p : String),
      f "https://www.instagram.com/p/Xy-9/extra" = .ok (some ⟨some p⟩) → p ≠ "" →
      getMediaIdFromUrl f "https://www.instagram.com/p/Xy-9/extra" = some p) ∧
    (∀ f : String → Except String (Option MediaInfo),
      f "https://www.instagram.com/p/Xy-9/extra" = .ok none →
      getMediaIdFromUrl f "https://www.instagram.com/p/Xy-9/extra" = none) :=
  c8_amended "https://www.instagram.com/p/Xy-9/extra" (by decide)

/-! ## Session state machine

`loginToInstagram` (src/index.ts lines 106-124) and the auth-related
error classification of the tool dispatcher (lines 279-297). -/

/-- The process-wide session state. -/
structure SessionState where
  isLoggedIn : Bool
deriving DecidableEq

/-- `loginToInstagram`, parametrised by the outcome of the remote
`ig.account.login` call: returns the new state, the boolean result, and
the number of remote login calls issued. -/
def loginToInstagram (login : Except String Unit) (s : SessionState) :
    SessionState × Bool × Nat :=
  if s.isLoggedIn then (s, true, 0)
  else
    match login with
    | .ok _ => ({ isLoggedIn := true }, true, 1)
    | .error _ => (s, false, 1)

/-- The dispatcher's catch block (lines 279-297): classifies a thrown
error, resetting `isLoggedIn` on `IgLoginRequiredError` /
`IgCheckpointError` so the next call re-authenticates. -/
def dispatchCatch (s : SessionState) (e : IgError) : SessionState × McpError :=
  match e with
  | .notFound msg =>
      (s, ⟨.invalidParams, "Instagram resource not found: " ++ msg⟩)
  | .loginRequired msg =>
      (⟨false⟩, ⟨.internalError, "Instagram login required or challenge encountered: " ++ msg⟩)
  | .checkpoint msg =>
      (⟨false⟩, ⟨.internalError, "Instagram login required or challenge encountered: " ++ msg⟩)
  | .requestsLimit msg =>
      (s, ⟨.internalError, "Instagram rate limit hit: " ++ msg⟩)
  | .other msg =>
      (s, ⟨.internalError, "An unexpected error occurred while executing the tool: " ++ msg⟩)

/-! ## Claim C9 -/

/-- C9: the session state machine. When already authenticated,
`loginToInstagram` is a no-op — zero remote login calls, state and
result unchanged — so redundant calls are idempotent; on login failure
the session stays unauthenticated; and the dispatcher's handling of
`IgLoginRequiredError` / `IgCheckpointError` resets the session to
unauthenticated so the next operation re-attempts authentication. -/
theorem c9_session_state_machine :
    (∀ (login : Except String Unit) (s : SessionState), s.isLoggedIn = true →
      loginToInstagram login s = (s, true, 0)) ∧
    (∀ (msg : String) (s : SessionState), s.isLoggedIn = false →
      (loginToInstagram (.error msg) s).1.isLoggedIn = false ∧
      (loginToInstagram (.error msg) s).2.1 = false) ∧
    (∀ (s : SessionState) (msg : String),
      (dispatchCatch s (.loginRequired msg)).1.isLoggedIn = false) ∧
    (∀ (s : SessionState) (msg : String),
      (dispatchCatch s (.checkpoint msg)).1.isLoggedIn = false) := by
  refine ⟨?_, ?_, ?_, ?_⟩
  · intro login s h
    unfold loginToInstagram
    rw [if_pos h]
  · intro msg s h
    unfold loginToInstagram
    rw [if_neg (by simp [h])]
    exact ⟨h, rfl⟩
  · intro s msg
    rfl
  · intro s msg
    rfl

/-- C9 witness: a logged-in session is untouched by a would-fail login,
and a failed login from a fresh session leaves it unauthenticated. -/
theorem c9_session_state_machine_witness :
    loginToInstagram (.error "bad password") ⟨true⟩ = (⟨true⟩, true, 0) ∧
    (loginToInstagram (.error "bad password") ⟨false⟩).1.isLoggedIn = false ∧
    (dispatchCatch ⟨true⟩ (.loginRequired "login_required")).1.isLoggedIn = false :=
  ⟨c9_session_state_machine.1 (.error "bad password") ⟨true⟩ rfl,
    (c9_session_state_machine.2.1 "bad password" ⟨false⟩ rfl).1,
    c9_session_state_machine.2.2.1 ⟨true⟩ "login_required"⟩

end IcyMcp
